import Mathlib

/-!
Verification of the SERO deployment simulation & map synchronization engine
(frontend `VehiclesMap` component).  The numeric type of the embedding is `ℚ`
(exact rationals standing for the JavaScript numbers); strings are Lean
`String`s.  Network fetches are modelled by their outcomes: an
`Option DeploymentResponse` per fleet (`none` = a non-success HTTP response,
which the code logs and skips) and an oracle `ℕ → Option RouteJson` giving the
`/route` outcome for each move index of the fleet.
-/

namespace SERO

/-- The two fleet kinds handled by the orchestrator. -/
inductive FleetType where
  | fire
  | police
deriving DecidableEq

/-- String rendering of a fleet type, as used in trip id templates. -/
def fleetTypeStr : FleetType → String
  | .fire => "fire"
  | .police => "police"

/-- One point of a trip path: `{ time, lon, lat }`. -/
structure TripPoint where
  time : ℚ
  lon : ℚ
  lat : ℚ
deriving DecidableEq

/-- A trip together with the optional move metadata (`TripWithMeta` in the
source: `Trip & { fromStationId?, toStationId?, fromStationName?, toStationName? }`). -/
structure TripWithMeta where
  id : String
  fleet_type : FleetType
  vehicleKind : String
  side : String
  path : List TripPoint
  fromStationId : Option String := none
  toStationId : Option String := none
  fromStationName : Option String := none
  toStationName : Option String := none
deriving DecidableEq

/-- The grid constants of the source file. -/
def GRID_MIN_LAT : ℚ := 47.48

def GRID_MAX_LAT : ℚ := 47.75

def GRID_MIN_LON : ℚ := -122.45

def GRID_MAX_LON : ℚ := -122.22

def GRID_LAT_STEP : ℚ := 0.01

def GRID_LON_STEP : ℚ := 0.01

/-- `latLonToCellId` from the source: the spatial grid indexer.  The source
writes the cell counts as `Math.ceil((GRID_MAX_LAT - GRID_MIN_LAT) /
GRID_LAT_STEP)` and `Math.ceil((GRID_MAX_LON - GRID_MIN_LON) /
GRID_LON_STEP)`; under its IEEE-754 double arithmetic those quotients
evaluate to `27.000000000000313` and `23.000000000000398`, so the ceilings
the program actually computes are `28` and `24`.  The embedding folds these
two constants to those computed values (they are fixed at runtime); the
per-point arithmetic is carried exactly over `ℚ` (the subtractions of nearby
doubles are exact, only the division's sub-ulp rounding is idealized).
Indices are floors; out-of-range indices give `none` (the JS `null`). -/
def latLonToCellId (lat lon : ℚ) : Option ℤ :=
  let nLat : ℤ := 28
  let nLon : ℤ := 24
  let i : ℤ := ⌊(lat - GRID_MIN_LAT) / GRID_LAT_STEP⌋
  let j : ℤ := ⌊(lon - GRID_MIN_LON) / GRID_LON_STEP⌋
  if i < 0 ∨ j < 0 ∨ nLat ≤ i ∨ nLon ≤ j then none
  else some (i * nLon + j)

/-- Linear interpolation between two path points at time `t`, exactly as the
loop body of `interpolatePosition` computes it (longitude and latitude
independently, by the fractional position of `t` between the two times). -/
def lerpAt (p0 p1 : TripPoint) (t : ℚ) : ℚ × ℚ :=
  let frac := (t - p0.time) / (p1.time - p0.time)
  (p0.lon + (p1.lon - p0.lon) * frac, p0.lat + (p1.lat - p0.lat) * frac)

/-- The scan loop of `interpolatePosition`: walk consecutive pairs in path
order and return the interpolation at the first pair whose times bracket `t`
(`t >= p0.time && t <= p1.time`); `none` when no pair matches. -/
def interpSegments : List TripPoint → ℚ → Option (ℚ × ℚ)
  | p0 :: p1 :: rest, t =>
    if p0.time ≤ t ∧ t ≤ p1.time then some (lerpAt p0 p1 t)
    else interpSegments (p1 :: rest) t
  | _, _ => none

/-- `interpolatePosition(path, t)` from the source: `[0, 0]` for an empty
path, clamp to the first point for `t` at or before its time, clamp to the
last point for `t` at or after its time, otherwise the scan loop, with the
first point again as the fall-through result. -/
def interpolatePosition (path : List TripPoint) (t : ℚ) : ℚ × ℚ :=
  match path with
  | [] => (0, 0)
  | p :: ps =>
    if t ≤ p.time then (p.lon, p.lat)
    else
      let lastP := (p :: ps).getLast (List.cons_ne_nil p ps)
      if lastP.time ≤ t then (lastP.lon, lastP.lat)
      else
        match interpSegments (p :: ps) t with
        | some pos => pos
        | none => (p.lon, p.lat)

/-- A station input sent to `/optimize/deployment`. -/
structure StationInput where
  station_id : String
  lat : ℚ
  lon : ℚ
  vehicles_current : ℤ
deriving DecidableEq

/-- A station row of a deployment response.  The optional `station_name` and
`name` fields model the duck-typed `(s as any).station_name ?? (s as any).name`
lookups of the source. -/
structure StationDeployment where
  station_id : String
  lat : ℚ
  lon : ℚ
  vehicles_current : ℤ
  vehicles_target : ℤ
  local_risk : ℚ
  station_name : Option String := none
  name : Option String := none
deriving DecidableEq

/-- A rebalancing move of a deployment response. -/
structure Move where
  from_station_id : String
  to_station_id : String
deriving DecidableEq

/-- The body of a successful `/optimize/deployment` response.  `fleet_type`
is optional to model `(deployment.fleet_type as FleetType) ?? fleet_type`. -/
structure DeploymentResponse where
  fleet_type : Option FleetType := none
  stations : List StationDeployment
  moves : List Move
deriving DecidableEq

/-- The body of a successful `/route` response. -/
structure RouteJson where
  points : List TripPoint
deriving DecidableEq

/-- A station as stored in component state: the deployment row spread together
with the resolved fleet type and the derived `inMove` flag
(`StationWithFlag` in the source). -/
structure StationWithFlag where
  station_id : String
  lat : ℚ
  lon : ℚ
  vehicles_current : ℤ
  vehicles_target : ℤ
  local_risk : ℚ
  station_name : Option String := none
  name : Option String := none
  fleet_type : FleetType
  inMove : Bool
deriving DecidableEq

/-- The modelled outcome of one fleet's backend interaction inside
`fetchAll`: the deployment fetch result (`none` = non-ok HTTP response, which
the loop logs and `continue`s past) and, for each move index, the `/route`
fetch result (`none` = non-ok response, dropped individually). -/
structure FleetOutcome where
  deploy : Option DeploymentResponse
  routes : ℕ → Option RouteJson

/-- The endpoints added to the `activeStationIds` set by a move list
(`moves.forEach(move => { add(from); add(to) })`); only membership matters. -/
def moveEndpoints (moves : List Move) : List String :=
  moves.foldl (fun acc mv => acc ++ [mv.from_station_id, mv.to_station_id]) []

/-- `{ ...s, fleet_type, inMove: activeStationIds.has(s.station_id) }`. -/
def withFlag (s : StationDeployment) (ft : FleetType) (act : List String) :
    StationWithFlag :=
  { station_id := s.station_id, lat := s.lat, lon := s.lon,
    vehicles_current := s.vehicles_current,
    vehicles_target := s.vehicles_target, local_risk := s.local_risk,
    station_name := s.station_name, name := s.name,
    fleet_type := ft, inMove := decide (s.station_id ∈ act) }

/-- The `stationById` record: built by inserting every deployment station in
order (a later duplicate id overwrites an earlier one), then looked up. -/
def stationById (stations : List StationDeployment) (sid : String) :
    Option StationDeployment :=
  stations.foldl (fun acc s => if s.station_id = sid then some s else acc) none

/-- One entry of `routeResponses`: `null` when either move endpoint is missing
from `stationById` or when the `/route` request for this move index failed,
otherwise the route body with the move and its resolved endpoints. -/
def routeEntry (d : DeploymentResponse) (routes : ℕ → Option RouteJson)
    (i : ℕ) (mv : Move) :
    Option (RouteJson × Move × StationDeployment × StationDeployment) :=
  match stationById d.stations mv.from_station_id,
      stationById d.stations mv.to_station_id with
  | some fromS, some toS =>
    match routes i with
    | some rj => some (rj, mv, fromS, toS)
    | none => none
  | _, _ => none

/-- The trip built from a non-null `routeResponses[i]` entry: composite id
`fleet_from_to_i`, path taken verbatim from the route's `points`, and the
duck-typed station-name fallbacks. -/
def buildTrip (ft : FleetType) (i : ℕ)
    (e : RouteJson × Move × StationDeployment × StationDeployment) :
    TripWithMeta :=
  let rj := e.1
  let mv := e.2.1
  let fromS := e.2.2.1
  let toS := e.2.2.2
  { id := fleetTypeStr ft ++ "_" ++ mv.from_station_id ++ "_" ++
      mv.to_station_id ++ "_" ++ toString i,
    fleet_type := ft,
    vehicleKind := if ft = FleetType.fire then "fire_truck" else "police_car",
    side := "friendly",
    path := rj.points,
    fromStationId := some mv.from_station_id,
    toStationId := some mv.to_station_id,
    fromStationName :=
      some ((fromS.station_name.orElse fun _ => fromS.name).getD
        mv.from_station_id),
    toStationName :=
      some ((toS.station_name.orElse fun _ => toS.name).getD
        mv.to_station_id) }

/-- The output of one iteration of the fleet loop of `fetchAll`: the stations
and trips pushed for this fleet and the `activeStationIds` set afterwards. -/
structure FleetResult where
  stations : List StationWithFlag
  trips : List TripWithMeta
  active : List String
deriving DecidableEq

/-- One iteration of the fleet loop of `fetchAll`, given the accumulated
`activeStationIds` (`act0`).  A failed deployment fetch contributes nothing
(`continue`).  Otherwise: add the move endpoints to the active set, flag the
deployment's stations, resolve and route every move (null entries skipped),
and build one trip per surviving indexed entry. -/
def processFleet (ft : FleetType) (oc : FleetOutcome) (act0 : List String) :
    FleetResult :=
  match oc.deploy with
  | none => ⟨[], [], act0⟩
  | some d =>
    let ftB := d.fleet_type.getD ft
    let act := act0 ++ moveEndpoints d.moves
    let sts := d.stations.map (fun s => withFlag s ftB act)
    let trips := d.moves.enum.filterMap
      (fun p => (routeEntry d oc.routes p.1 p.2).map (buildTrip ftB p.1))
    ⟨sts, trips, act⟩

/-- `SAMPLE_TRIPS` from the source: the single built-in fallback trip. -/
def SAMPLE_TRIPS : List TripWithMeta :=
  [{ id := "veh_101",
     fleet_type := FleetType.fire,
     vehicleKind := "fire_truck",
     side := "friendly",
     path := [⟨0, -122.345, 47.6⟩, ⟨60, -122.34, 47.605⟩,
       ⟨120, -122.335, 47.61⟩, ⟨180, -122.33, 47.615⟩] }]

/-- The station and trip accumulators of `fetchAll` after both fleet
iterations (fire first, then police, sharing one `activeStationIds` set),
before the fallback substitution. -/
def fetchAllCore (fire police : FleetOutcome) :
    List StationWithFlag × List TripWithMeta :=
  let r1 := processFleet FleetType.fire fire []
  let r2 := processFleet FleetType.police police r1.active
  (r1.stations ++ r2.stations, r1.trips ++ r2.trips)

/-- The state written by a `fetchAll` run. -/
structure FetchResult where
  stations : List StationWithFlag
  trips : List TripWithMeta
deriving DecidableEq

/-- The full `fetchAll` result: the accumulated stations, and the accumulated
trips with `SAMPLE_TRIPS` substituted when zero trips were produced. -/
def fetchAll (fire police : FleetOutcome) : FetchResult :=
  let core := fetchAllCore fire police
  ⟨core.1, if core.2 = [] then SAMPLE_TRIPS else core.2⟩

/-- JavaScript string truthiness for the optional ids of a context move
(`undefined` and the empty string are falsy). -/
def truthyStr : Option String → Bool
  | none => false
  | some s => decide (s ≠ "")

/-- One entry of `ContextSnapshot.deployment.moves`. -/
structure ContextMove where
  from_station_id : Option String
  to_station_id : Option String
  fleet_type : FleetType
deriving DecidableEq

/-- `deployment.moves` of the context snapshot: every trip's endpoint triple,
filtered to those with both ids truthy, capped at 20. -/
def contextMoves (trips : List TripWithMeta) : List ContextMove :=
  ((trips.map fun t =>
      ContextMove.mk t.fromStationId t.toStationId t.fleet_type).filter
    (fun m => truthyStr m.from_station_id && truthyStr m.to_station_id)).take
    20

/-- The selection state of the component: `selectedTripId`,
`selectedStationId`, `selectedCellId`. -/
structure SelState where
  selectedTripId : Option String
  selectedStationId : Option String
  selectedCellId : Option ℤ
deriving DecidableEq

/-- Initial selection state: all three ids `null`. -/
def initialSel : SelState := ⟨none, none, none⟩

/-- The selection events of the component: a pick on the vehicle-icon layer, a
pick on the station-icon layer, a pick on the risk-grid layer, a deck-level
click that hit no object, and the popup close button. -/
inductive SelEvent where
  | tripIconClick (id : String)
  | stationIconClick (sid : String)
  | cellClick (cid : ℤ)
  | backgroundClick
  | popupClose

/-- The state updates performed by each click handler of the source. -/
def selStep (_s : SelState) : SelEvent → SelState
  | .tripIconClick id => ⟨some id, none, none⟩
  | .stationIconClick sid => ⟨none, some sid, none⟩
  | .cellClick cid => ⟨none, none, some cid⟩
  | .backgroundClick => ⟨none, none, none⟩
  | .popupClose => ⟨none, none, none⟩

/-- Selection state reached from the initial state by a sequence of events. -/
def runSel (evs : List SelEvent) : SelState :=
  evs.foldl selStep initialSel

/-- At most one of the three selection ids is non-null. -/
def atMostOneSel (s : SelState) : Prop :=
  s.selectedTripId.isSome.toNat + s.selectedStationId.isSome.toNat +
    s.selectedCellId.isSome.toNat ≤ 1

/-- `t.path[t.path.length - 1]?.time ?? 0`: the terminal timestamp of a trip,
`0` for an empty path. -/
def lastTime (t : TripWithMeta) : ℚ :=
  (t.path.getLast?.map TripPoint.time).getD 0

/-- The `maxTime` memo: `0` for no trips, otherwise
`Math.max(...trips.map(lastTime))`. -/
def maxTimeOf : List TripWithMeta → ℚ
  | [] => 0
  | t :: ts => (ts.map lastTime).foldl max (lastTime t)

/-- The interval callback body of the playback clock:
`if (!maxTime) return prev; const next = prev + speed;
if (next >= maxTime) return 0; return next;`. -/
def nextTime (prev speed mt : ℚ) : ℚ :=
  if mt = 0 then prev
  else if mt ≤ prev + speed then 0
  else prev + speed

/-! Concrete fixtures used to instantiate the theorems below.  Coordinates are
kept to integer rationals where the scenario does not dictate them. -/

/-- A fleet whose `/optimize/deployment` request got a non-success response. -/
def failedFleet : FleetOutcome := ⟨none, fun _ => none⟩

/-- Station `A` of the two-station fixture. -/
def stA : StationDeployment :=
  { station_id := "A", lat := 0, lon := 0, vehicles_current := 1,
    vehicles_target := 1, local_risk := 0 }

/-- Station `B` of the two-station fixture. -/
def stB : StationDeployment :=
  { station_id := "B", lat := 1, lon := 1, vehicles_current := 1,
    vehicles_target := 1, local_risk := 0 }

/-- A deployment response with stations `A`, `B` and the single move `A→B`. -/
def twoStationDeploy : DeploymentResponse :=
  { stations := [stA, stB], moves := [⟨"A", "B"⟩] }

/-- Fleet outcome: deployment `A→B` succeeded and the route for it succeeded
with an empty `points` list. -/
def emptyRouteFleet : FleetOutcome := ⟨some twoStationDeploy, fun _ => some ⟨[]⟩⟩

/-- Fleet outcome: deployment `A→B` succeeded and the route for it succeeded
with a two-point path. -/
def succFleet : FleetOutcome :=
  ⟨some twoStationDeploy, fun _ => some ⟨[⟨0, 0, 0⟩, ⟨10, 1, 1⟩]⟩⟩

/-- The station of the self-move scenario of the spec:
`{FS1, 47.60, -122.33, 2}`. -/
def stFS1 : StationDeployment :=
  { station_id := "FS1", lat := 47.60, lon := -122.33, vehicles_current := 2,
    vehicles_target := 2, local_risk := 0 }

/-- The deployment response of the self-move scenario: one station `FS1` and
the single move `FS1→FS1`. -/
def selfMoveDeploy : DeploymentResponse :=
  { stations := [stFS1], moves := [⟨"FS1", "FS1"⟩] }

/-- Self-move scenario with a successful one-point route response. -/
def selfMoveFleet : FleetOutcome :=
  ⟨some selfMoveDeploy, fun _ => some ⟨[⟨0, 0, 0⟩]⟩⟩

/-- Fire deployment station called `X`. -/
def stX_fire : StationDeployment :=
  { station_id := "X", lat := 0, lon := 0, vehicles_current := 1,
    vehicles_target := 1, local_risk := 0 }

/-- Fire fleet fixture: one station `X`, one move `X→Y`. -/
def fireXDeploy : DeploymentResponse :=
  { stations := [stX_fire], moves := [⟨"X", "Y"⟩] }

/-- Fire fleet outcome around `fireXDeploy` (route outcomes irrelevant). -/
def fireXFleet : FleetOutcome := ⟨some fireXDeploy, fun _ => none⟩

/-- Police deployment station also called `X`. -/
def stX_police : StationDeployment :=
  { station_id := "X", lat := 2, lon := 2, vehicles_current := 1,
    vehicles_target := 1, local_risk := 0 }

/-- Police fleet fixture: one station `X` and no moves at all. -/
def policeXDeploy : DeploymentResponse :=
  { stations := [stX_police], moves := [] }

/-- Police fleet outcome around `policeXDeploy`. -/
def policeXFleet : FleetOutcome := ⟨some policeXDeploy, fun _ => none⟩

/-- The endpoints a fleet contributes to the shared `activeStationIds` set:
nothing on a failed deployment fetch, its move endpoints otherwise. -/
def fleetActiveSet (oc : FleetOutcome) : List String :=
  match oc.deploy with
  | none => []
  | some d => moveEndpoints d.moves

/-- The first fire station of `fireXDeploy` as flagged by the fire
iteration. -/
def sXfire : StationWithFlag :=
  withFlag stX_fire FleetType.fire ([] ++ moveEndpoints fireXDeploy.moves)

/-- The two-point path of the spec's interpolation test, with integer
coordinates: times 0 and 10, longitudes 0 and 2, latitudes 0 and 4. -/
def midPath : List TripPoint := [⟨0, 0, 0⟩, ⟨10, 2, 4⟩]

/-! Theorems. -/

/-- C10: `interpolatePosition` is total on the empty path: it returns the
sentinel coordinate `(0, 0)` for every query time instead of raising. -/
theorem C10_empty_path_sentinel : ∀ t : ℚ, interpolatePosition [] t = (0, 0) :=
  fun _ => rfl

theorem atMostOneSel_selStep (s : SelState) (e : SelEvent) :
    atMostOneSel (selStep s e) := by
  cases e <;> simp [selStep, atMostOneSel]

theorem atMostOneSel_foldl (evs : List SelEvent) :
    ∀ s : SelState, atMostOneSel s → atMostOneSel (evs.foldl selStep s) := by
  induction evs with
  | nil => exact fun s h => h
  | cons e evs ih => exact fun s _ => ih (selStep s e) (atMostOneSel_selStep s e)

/-- C6: selection is mutually exclusive.  Each selecting handler leaves
exactly its own id set and clears the two others, a background click (and the
popup close button) clears all three, and along every event sequence from the
initial state at most one of the three selection ids is non-null. -/
theorem C6_selection_exclusive :
    (∀ (s : SelState) (id : String),
      selStep s (SelEvent.tripIconClick id) = ⟨some id, none, none⟩) ∧
    (∀ (s : SelState) (sid : String),
      selStep s (SelEvent.stationIconClick sid) = ⟨none, some sid, none⟩) ∧
    (∀ (s : SelState) (cid : ℤ),
      selStep s (SelEvent.cellClick cid) = ⟨none, none, some cid⟩) ∧
    (∀ s : SelState, selStep s SelEvent.backgroundClick = ⟨none, none, none⟩) ∧
    (∀ evs : List SelEvent, atMostOneSel (runSel evs)) :=
  ⟨fun _ _ => rfl, fun _ _ => rfl, fun _ _ => rfl, fun _ => rfl,
    fun evs => atMostOneSel_foldl evs initialSel (by simp [initialSel, atMostOneSel])⟩

theorem le_foldl_max (l : List ℚ) : ∀ a : ℚ, a ≤ l.foldl max a := by
  induction l with
  | nil => exact fun a => le_refl a
  | cons x xs ih => exact fun a => le_trans (le_max_left a x) (ih (max a x))

theorem mem_le_foldl_max (l : List ℚ) :
    ∀ (a b : ℚ), b ∈ l → b ≤ l.foldl max a := by
  induction l with
  | nil => intro a b h; cases h
  | cons x xs ih =>
    intro a b h
    rcases List.mem_cons.mp h with h | h
    · subst h; exact le_trans (le_max_right a b) (le_foldl_max xs (max a b))
    · exact ih (max a x) b h

theorem foldl_max_cases (l : List ℚ) :
    ∀ a : ℚ, l.foldl max a = a ∨ l.foldl max a ∈ l := by
  induction l with
  | nil => exact fun a => Or.inl rfl
  | cons x xs ih =>
    intro a
    rcases ih (max a x) with h | h
    · rcases max_cases a x with ⟨hm, _⟩ | ⟨hm, _⟩
      · exact Or.inl (by rw [List.foldl_cons, h, hm])
      · exact Or.inr (by rw [List.foldl_cons, h, hm]; exact List.mem_cons_self x xs)
    · exact Or.inr (List.mem_cons_of_mem x h)

/-- C7: the playback clock.  With `maxTime > 0`, a tick yields `time + speed`
when that sum is strictly below `maxTime` and exactly `0` once the sum reaches
`maxTime`, and the tick result never exceeds (indeed stays strictly below)
`maxTime`; `maxTime` is `0` for an empty trip list, in which case a tick
leaves the time unchanged, and for a non-empty trip list it is the attained
maximum of the trips' terminal timestamps (the last path point's time, read as
`0` for an empty path). -/
theorem C7_playback_clock :
    (∀ prev speed mt : ℚ, 0 < mt →
      (prev + speed < mt → nextTime prev speed mt = prev + speed) ∧
      (mt ≤ prev + speed → nextTime prev speed mt = 0) ∧
      nextTime prev speed mt < mt) ∧
    (∀ prev speed : ℚ, nextTime prev speed 0 = prev) ∧
    maxTimeOf [] = 0 ∧
    (∀ trips : List TripWithMeta, trips ≠ [] →
      maxTimeOf trips ∈ trips.map lastTime ∧
        ∀ t ∈ trips, lastTime t ≤ maxTimeOf trips) ∧
    (∀ (t : TripWithMeta) (h : t.path ≠ []),
      lastTime t = (t.path.getLast h).time) := by
  refine ⟨?_, ?_, rfl, ?_, ?_⟩
  · intro prev speed mt hmt
    have hne : mt ≠ 0 := ne_of_gt hmt
    refine ⟨fun hlt => ?_, fun hge => ?_, ?_⟩
    · simp [nextTime, hne, not_le.mpr hlt]
    · simp [nextTime, hne, hge]
    · by_cases hge : mt ≤ prev + speed
      · simpa [nextTime, hne, hge] using hmt
      · simpa [nextTime, hne, hge] using not_le.mp hge
  · intro prev speed; simp [nextTime]
  · intro trips hne
    match trips, hne with
    | t :: ts, _ =>
      constructor
      · rcases foldl_max_cases (ts.map lastTime) (lastTime t) with h | h
        · simp [maxTimeOf, h]
        · simp only [maxTimeOf, List.map_cons]
          exact List.mem_cons_of_mem _ h
      · intro t' ht'
        rcases List.mem_cons.mp ht' with h | h
        · subst h; exact le_foldl_max _ _
        · exact mem_le_foldl_max _ _ _ (List.mem_map_of_mem lastTime h)
  · intro t h
    simp [lastTime, List.getLast?_eq_getLast t.path h]

/-- C7 witness: the sample trip list has `maxTime = 180 > 0`; the tick facts
and the attained-maximum facts instantiated there. -/
theorem C7_playback_clock_witness :
    0 < maxTimeOf SAMPLE_TRIPS ∧ SAMPLE_TRIPS ≠ [] ∧
    ((0 + 1 < maxTimeOf SAMPLE_TRIPS →
        nextTime 0 1 (maxTimeOf SAMPLE_TRIPS) = 0 + 1) ∧
      (maxTimeOf SAMPLE_TRIPS ≤ 0 + 1 →
        nextTime 0 1 (maxTimeOf SAMPLE_TRIPS) = 0) ∧
      nextTime 0 1 (maxTimeOf SAMPLE_TRIPS) < maxTimeOf SAMPLE_TRIPS) ∧
    (maxTimeOf SAMPLE_TRIPS ∈ SAMPLE_TRIPS.map lastTime ∧
      ∀ t ∈ SAMPLE_TRIPS, lastTime t ≤ maxTimeOf SAMPLE_TRIPS) :=
  ⟨by decide, by decide,
    C7_playback_clock.1 0 1 (maxTimeOf SAMPLE_TRIPS) (by decide),
    C7_playback_clock.2.2.2.1 SAMPLE_TRIPS (by decide)⟩

/-- C1: if the deployment request of one fleet fails (non-success response)
while the other fleet's succeeds, the run still processes the succeeding
fleet: the resulting station list is exactly the succeeding fleet's station
list, the assembled trip list is exactly the succeeding fleet's trip list,
and (when that list is non-empty, so the fallback does not kick in) the
stored trip list equals it as well — nothing is contributed by the failing
fleet. -/
theorem C1_fleet_isolation (fire police : FleetOutcome) :
    (∀ d : DeploymentResponse, fire.deploy = none → police.deploy = some d →
      (fetchAll fire police).stations =
          (processFleet FleetType.police police []).stations ∧
        (fetchAllCore fire police).2 =
          (processFleet FleetType.police police []).trips ∧
        ((processFleet FleetType.police police []).trips ≠ [] →
          (fetchAll fire police).trips =
            (processFleet FleetType.police police []).trips)) ∧
    (∀ d : DeploymentResponse, police.deploy = none → fire.deploy = some d →
      (fetchAll fire police).stations =
          (processFleet FleetType.fire fire []).stations ∧
        (fetchAllCore fire police).2 =
          (processFleet FleetType.fire fire []).trips ∧
        ((processFleet FleetType.fire fire []).trips ≠ [] →
          (fetchAll fire police).trips =
            (processFleet FleetType.fire fire []).trips)) := by
  constructor
  · intro d hf hp
    have h1 : processFleet FleetType.fire fire [] = ⟨[], [], []⟩ := by
      simp [processFleet, hf]
    refine ⟨?_, ?_, ?_⟩
    · simp [fetchAll, fetchAllCore, h1]
    · simp [fetchAllCore, h1]
    · intro hne
      simp [fetchAll, fetchAllCore, h1, hne]
  · intro d hp hf
    have h2 : ∀ act0, processFleet FleetType.police police act0 = ⟨[], [], act0⟩ := by
      intro act0; simp [processFleet, hp]
    refine ⟨?_, ?_, ?_⟩
    · simp [fetchAll, fetchAllCore, h2]
    · simp [fetchAllCore, h2]
    · intro hne
      simp [fetchAll, fetchAllCore, h2, hne]

/-- C1 witness: fire fails, police succeeds with one routed move; the station
and trip lists are exactly the police fleet's. -/
theorem C1_fleet_isolation_witness :
    failedFleet.deploy = none ∧ succFleet.deploy = some twoStationDeploy ∧
    (processFleet FleetType.police succFleet []).trips ≠ [] ∧
    (fetchAll failedFleet succFleet).stations =
      (processFleet FleetType.police succFleet []).stations ∧
    (fetchAll failedFleet succFleet).trips =
      (processFleet FleetType.police succFleet []).trips := by
  have h := (C1_fleet_isolation failedFleet succFleet).1 twoStationDeploy rfl rfl
  exact ⟨rfl, rfl, by decide, h.1, h.2.2 (by decide)⟩

/-- C2: a run that assembles zero trips stores the single built-in fallback
trip, whose id is `veh_101` and whose endpoint ids are absent, so the
context snapshot's `deployment.moves` list excludes it and is empty. -/
theorem C2_fallback_trip (fire police : FleetOutcome)
    (h : (fetchAllCore fire police).2 = []) :
    (fetchAll fire police).trips = SAMPLE_TRIPS ∧
    SAMPLE_TRIPS.map (fun t => (t.id, t.fromStationId, t.toStationId)) =
      [("veh_101", none, none)] ∧
    contextMoves (fetchAll fire police).trips = [] := by
  have ht : (fetchAll fire police).trips = SAMPLE_TRIPS := by
    simp [fetchAll, h]
  refine ⟨ht, rfl, ?_⟩
  rw [ht]
  rfl

/-- C2 witness: both deployments fail, zero trips are assembled, the fallback
trip is stored and contributes no context moves. -/
theorem C2_fallback_trip_witness :
    (fetchAllCore failedFleet failedFleet).2 = [] ∧
    (fetchAll failedFleet failedFleet).trips = SAMPLE_TRIPS ∧
    contextMoves (fetchAll failedFleet failedFleet).trips = [] := by
  have h := C2_fallback_trip failedFleet failedFleet rfl
  exact ⟨rfl, h.1, h.2.2⟩

/-- C3 counterexample: refutes the claim that a trip with an empty path is
dropped.  A run whose only route response succeeds with an empty `points`
list assembles (and stores) exactly one trip, with id `fire_A_B_0` and an
empty path — nothing drops it. -/
theorem C3_counterexample :
    (fetchAllCore emptyRouteFleet failedFleet).2.map (fun t => (t.id, t.path)) =
      [("fire_A_B_0", [])] ∧
    (fetchAll emptyRouteFleet failedFleet).trips.map (fun t => (t.id, t.path)) =
      [("fire_A_B_0", [])] :=
  ⟨rfl, rfl⟩

/-- C3 (amended): a successful `/route` response always contributes its trip,
whatever its `points` field — in particular a response with an empty `points`
list yields a trip with an empty path in the assembled list, not a dropped
move. -/
theorem C3_empty_path_kept (ft : FleetType) (oc : FleetOutcome)
    (act0 : List String) (d : DeploymentResponse) (i : ℕ) (mv : Move)
    (fromS toS : StationDeployment) (rj : RouteJson)
    (hd : oc.deploy = some d)
    (hmv : d.moves[i]? = some mv)
    (hfrom : stationById d.stations mv.from_station_id = some fromS)
    (hto : stationById d.stations mv.to_station_id = some toS)
    (hroute : oc.routes i = some rj) :
    buildTrip (d.fleet_type.getD ft) i (rj, mv, fromS, toS) ∈
      (processFleet ft oc act0).trips ∧
    (buildTrip (d.fleet_type.getD ft) i (rj, mv, fromS, toS)).path =
      rj.points := by
  constructor
  · have hpf : (processFleet ft oc act0).trips =
        d.moves.enum.filterMap
          (fun p => (routeEntry d oc.routes p.1 p.2).map
            (buildTrip (d.fleet_type.getD ft) p.1)) := by
      simp [processFleet, hd]
    rw [hpf]
    apply List.mem_filterMap.mpr
    refine ⟨(i, mv), ?_, ?_⟩
    · exact List.mk_mem_enum_iff_getElem?.mpr hmv
    · simp [routeEntry, hfrom, hto, hroute]
  · rfl

/-- C3 witness: the empty-points fixture instantiates the amended claim — the
empty-path trip is a member of the fleet's assembled trip list. -/
theorem C3_empty_path_kept_witness :
    emptyRouteFleet.deploy = some twoStationDeploy ∧
    twoStationDeploy.moves[0]? = some ⟨"A", "B"⟩ ∧
    stationById twoStationDeploy.stations "A" = some stA ∧
    stationById twoStationDeploy.stations "B" = some stB ∧
    emptyRouteFleet.routes 0 = some ⟨[]⟩ ∧
    buildTrip FleetType.fire 0 (⟨[]⟩, ⟨"A", "B"⟩, stA, stB) ∈
      (processFleet FleetType.fire emptyRouteFleet []).trips ∧
    (buildTrip FleetType.fire 0 (⟨[]⟩, ⟨"A", "B"⟩, stA, stB)).path = [] :=
  ⟨rfl, rfl, rfl, rfl, rfl,
    (C3_empty_path_kept FleetType.fire emptyRouteFleet [] twoStationDeploy 0
      ⟨"A", "B"⟩ stA stB ⟨[]⟩ rfl rfl rfl rfl rfl).1,
    (C3_empty_path_kept FleetType.fire emptyRouteFleet [] twoStationDeploy 0
      ⟨"A", "B"⟩ stA stB ⟨[]⟩ rfl rfl rfl rfl rfl).2⟩

/-- C4 counterexample: refutes the claim that a self-move is dropped.  In the
spec's own scenario (one station `FS1`, deployment returns the single move
`FS1→FS1`), with the route request succeeding, the run assembles exactly the
trip `fire_FS1_FS1_0`: the trip list is non-empty and the fallback trip is
not substituted. -/
theorem C4_counterexample :
    (fetchAll selfMoveFleet failedFleet).trips.map (fun t => t.id) =
      ["fire_FS1_FS1_0"] ∧
    (fetchAllCore selfMoveFleet failedFleet).2 ≠ [] ∧
    (fetchAll selfMoveFleet failedFleet).trips.map (fun t => t.id) ≠
      SAMPLE_TRIPS.map (fun t => t.id) :=
  ⟨rfl, by decide, by decide⟩

theorem processFleet_trips_single (ft : FleetType) (ro : ℕ → Option RouteJson)
    (act0 : List String) (d : DeploymentResponse) (mv : Move)
    (hmv : d.moves = [mv]) :
    (processFleet ft ⟨some d, ro⟩ act0).trips =
      ((routeEntry d ro 0 mv).map (buildTrip (d.fleet_type.getD ft) 0)).toList := by
  have h : (processFleet ft ⟨some d, ro⟩ act0).trips =
      d.moves.enum.filterMap
        (fun p => (routeEntry d ro p.1 p.2).map
          (buildTrip (d.fleet_type.getD ft) p.1)) := rfl
  rw [h, hmv]
  cases hre : (routeEntry d ro 0 mv).map (buildTrip (d.fleet_type.getD ft) 0) with
  | none => simp [List.enum, hre]
  | some tr => simp [List.enum, hre]

/-- C4 (amended): in the self-move scenario the move `FS1→FS1` is not
dropped — both endpoints resolve to `FS1` in the deployment's own station
list and a route is requested for it.  Zero trips and the fallback
substitution occur exactly when that route request fails; when it succeeds,
the run assembles the single self-move trip built from the returned route. -/
theorem C4_self_move (ro : ℕ → Option RouteJson) :
    stationById selfMoveDeploy.stations "FS1" = some stFS1 ∧
    (ro 0 = none →
      (fetchAllCore ⟨some selfMoveDeploy, ro⟩ failedFleet).2 = [] ∧
      (fetchAll ⟨some selfMoveDeploy, ro⟩ failedFleet).trips = SAMPLE_TRIPS) ∧
    (∀ rj : RouteJson, ro 0 = some rj →
      (fetchAllCore ⟨some selfMoveDeploy, ro⟩ failedFleet).2 =
        [buildTrip FleetType.fire 0 (rj, ⟨"FS1", "FS1"⟩, stFS1, stFS1)]) := by
  have hcoreEq : ∀ ro' : ℕ → Option RouteJson,
      (fetchAllCore ⟨some selfMoveDeploy, ro'⟩ failedFleet).2 =
        (processFleet FleetType.fire ⟨some selfMoveDeploy, ro'⟩ []).trips := by
    intro ro'
    show (processFleet FleetType.fire ⟨some selfMoveDeploy, ro'⟩ []).trips ++
        (processFleet FleetType.police failedFleet _).trips = _
    simp [processFleet, failedFleet]
  have hre : ∀ x, ro 0 = x →
      routeEntry selfMoveDeploy ro 0 ⟨"FS1", "FS1"⟩ =
        (match x with
          | some rj => some (rj, (⟨"FS1", "FS1"⟩ : Move), stFS1, stFS1)
          | none => none) := by
    intro x hx
    have hmatch : routeEntry selfMoveDeploy ro 0 ⟨"FS1", "FS1"⟩ =
        (match ro 0 with
          | some rj => some (rj, (⟨"FS1", "FS1"⟩ : Move), stFS1, stFS1)
          | none => none) := rfl
    rw [hmatch, hx]
  refine ⟨rfl, ?_, ?_⟩
  · intro h0
    have hcore : (fetchAllCore ⟨some selfMoveDeploy, ro⟩ failedFleet).2 = [] := by
      rw [hcoreEq ro,
        processFleet_trips_single FleetType.fire ro [] selfMoveDeploy
          ⟨"FS1", "FS1"⟩ rfl,
        hre none h0]
      rfl
    exact ⟨hcore, by simp [fetchAll, hcore]⟩
  · intro rj hrj
    rw [hcoreEq ro,
      processFleet_trips_single FleetType.fire ro [] selfMoveDeploy
        ⟨"FS1", "FS1"⟩ rfl,
      hre (some rj) hrj]
    rfl

/-- C4 witness: the amended claim instantiated at the failing-route oracle —
the self-move scenario then produces zero trips and stores the fallback. -/
theorem C4_self_move_witness :
    (fetchAll ⟨some selfMoveDeploy, fun _ => none⟩ failedFleet).trips =
      SAMPLE_TRIPS :=
  ((C4_self_move (fun _ => none)).2.1 rfl).2

/-- C5 counterexample: refutes the claim that `inMove` reflects only the
station's own fleet's moves.  The fire deployment has the single move `X→Y`
and the police deployment has a station `X` and no moves at all, yet the
police station `X` ends up flagged `inMove = true`. -/
theorem C5_counterexample :
    (fetchAll fireXFleet policeXFleet).stations.map
        (fun s => (fleetTypeStr s.fleet_type, s.station_id, s.inMove)) =
      [("fire", "X", true), ("police", "X", true)] ∧
    policeXDeploy.moves = [] ∧ moveEndpoints policeXDeploy.moves = [] :=
  ⟨rfl, rfl, rfl⟩

/-- C5 (amended): `inMove` is true iff the station id occurs as an endpoint
of a move of its own fleet's deployment or of any earlier-processed fleet's
deployment — the `activeStationIds` set accumulates across the fleet loop.
For fire stations (first iteration) that is exactly the fire moves; for
police stations it is the fire endpoints (when the fire deployment
succeeded) together with the police endpoints. -/
theorem C5_inMove_accumulated (fire police : FleetOutcome) :
    (∀ d : DeploymentResponse, fire.deploy = some d →
      ∀ s ∈ (processFleet FleetType.fire fire []).stations,
        (s.inMove = true ↔ s.station_id ∈ moveEndpoints d.moves)) ∧
    (∀ d : DeploymentResponse, police.deploy = some d →
      ∀ s ∈ (processFleet FleetType.police police
          (processFleet FleetType.fire fire []).active).stations,
        (s.inMove = true ↔
          s.station_id ∈ fleetActiveSet fire ++ moveEndpoints d.moves)) ∧
    (fetchAll fire police).stations =
      (processFleet FleetType.fire fire []).stations ++
        (processFleet FleetType.police police
          (processFleet FleetType.fire fire []).active).stations := by
  have hact : (processFleet FleetType.fire fire []).active =
      fleetActiveSet fire := by
    cases h : fire.deploy with
    | none => simp [processFleet, fleetActiveSet, h]
    | some d => simp [processFleet, fleetActiveSet, h]
  refine ⟨?_, ?_, rfl⟩
  · intro d hd s hs
    rw [show (processFleet FleetType.fire fire []).stations =
        d.stations.map (fun s0 => withFlag s0 (d.fleet_type.getD FleetType.fire)
          ([] ++ moveEndpoints d.moves)) by simp [processFleet, hd]] at hs
    obtain ⟨s0, _, rfl⟩ := List.mem_map.mp hs
    simp [withFlag]
  · intro d hd s hs
    rw [show (processFleet FleetType.police police
          (processFleet FleetType.fire fire []).active).stations =
        d.stations.map (fun s0 => withFlag s0 (d.fleet_type.getD FleetType.police)
          ((processFleet FleetType.fire fire []).active ++ moveEndpoints d.moves))
        by simp [processFleet, hd]] at hs
    obtain ⟨s0, _, rfl⟩ := List.mem_map.mp hs
    simp [withFlag, hact]

/-- C5 witness: the fire station `X` of the fixture is flagged, and the
amended characterization applied to it gives `inMove ↔ X among the fire move
endpoints`. -/
theorem C5_inMove_accumulated_witness :
    fireXFleet.deploy = some fireXDeploy ∧
    sXfire ∈ (processFleet FleetType.fire fireXFleet []).stations ∧
    (sXfire.inMove = true ↔
      sXfire.station_id ∈ moveEndpoints fireXDeploy.moves) :=
  ⟨rfl, by decide,
    (C5_inMove_accumulated fireXFleet policeXFleet).1 fireXDeploy rfl sXfire
      (by decide)⟩


theorem lerpAt_left (p0 p1 : TripPoint) : lerpAt p0 p1 p0.time = (p0.lon, p0.lat) := by
  simp [lerpAt]

theorem lerpAt_right (p0 p1 : TripPoint) (h : p0.time ≠ p1.time) :
    lerpAt p0 p1 p1.time = (p1.lon, p1.lat) := by
  have hne : p1.time - p0.time ≠ 0 := sub_ne_zero.mpr (Ne.symm h)
  simp [lerpAt, div_self hne]

theorem interpSegments_bracket :
    ∀ (path : List TripPoint) (i : ℕ) (t : ℚ),
      List.Pairwise (fun a b => a.time < b.time) path →
      ∀ hi : i + 1 < path.length,
      (path.get ⟨i, Nat.lt_of_succ_lt hi⟩).time ≤ t →
      t ≤ (path.get ⟨i + 1, hi⟩).time →
      interpSegments path t =
        some (lerpAt (path.get ⟨i, Nat.lt_of_succ_lt hi⟩)
          (path.get ⟨i + 1, hi⟩) t) := by
  intro path
  induction path with
  | nil => intro i t _ hi; simp at hi
  | cons p0 rest ih =>
    intro i t hp hi hl hr
    cases rest with
    | nil => simp at hi
    | cons p1 rest' =>
      cases i with
      | zero =>
        show interpSegments (p0 :: p1 :: rest') t = _
        rw [interpSegments, if_pos ⟨hl, hr⟩]
        rfl
      | succ n =>
        have hp' : List.Pairwise (fun a b => a.time < b.time) (p1 :: rest') :=
          List.Pairwise.of_cons hp
        have hi' : n + 1 < (p1 :: rest').length := by
          simpa using hi
        have hl' : ((p1 :: rest').get ⟨n, Nat.lt_of_succ_lt hi'⟩).time ≤ t := hl
        have hr' : t ≤ ((p1 :: rest').get ⟨n + 1, hi'⟩).time := hr
        have ihres := ih n t hp' hi' hl' hr'
        show interpSegments (p0 :: p1 :: rest') t = _
        rw [interpSegments]
        by_cases hc : p0.time ≤ t ∧ t ≤ p1.time
        · rw [if_pos hc]
          -- the head pair also brackets t; with strictly increasing times this
          -- forces t = p1.time and n = 0, and both interpolations are p1
          have hp1n : p1.time ≤ ((p1 :: rest').get ⟨n, Nat.lt_of_succ_lt hi'⟩).time := by
            cases n with
            | zero => exact le_refl _
            | succ m =>
              have := (List.pairwise_iff_get.mp hp') ⟨0, by omega⟩
                ⟨m + 1, Nat.lt_of_succ_lt hi'⟩ (Fin.mk_lt_mk.mpr (by omega))
              exact le_of_lt this
          have ht : t = p1.time := le_antisymm hc.2 (le_trans hp1n hl')
          have hn0 : n = 0 := by
            by_contra hne
            have hgt : p1.time < ((p1 :: rest').get ⟨n, Nat.lt_of_succ_lt hi'⟩).time := by
              have := (List.pairwise_iff_get.mp hp') ⟨0, by omega⟩
                ⟨n, Nat.lt_of_succ_lt hi'⟩ (Fin.mk_lt_mk.mpr (by omega))
              exact this
            have : p1.time < t := lt_of_lt_of_le hgt hl'
            exact absurd (ht ▸ this) (lt_irrefl _)
          subst hn0
          have h01 : p0.time < p1.time := List.rel_of_pairwise_cons hp (List.mem_cons_self p1 rest')
          have left1 : lerpAt p0 p1 t = (p1.lon, p1.lat) := by
            rw [ht]; exact lerpAt_right p0 p1 (ne_of_lt h01)
          have right1 : lerpAt ((p0 :: p1 :: rest').get ⟨1, Nat.lt_of_succ_lt hi⟩)
              ((p0 :: p1 :: rest').get ⟨2, hi⟩) t = (p1.lon, p1.lat) := by
            show lerpAt p1 ((p1 :: rest').get ⟨1, hi'⟩) t = _
            rw [ht]
            exact lerpAt_left p1 _
          rw [left1, right1]
        · rw [if_neg hc]
          exact ihres

theorem pairwise_time_get_lt (path : List TripPoint)
    (hs : List.Pairwise (fun a b => a.time < b.time) path)
    (j k : ℕ) (hj : j < path.length) (hk : k < path.length) (hjk : j < k) :
    (path.get ⟨j, hj⟩).time < (path.get ⟨k, hk⟩).time :=
  List.pairwise_iff_get.mp hs ⟨j, hj⟩ ⟨k, hk⟩ (Fin.mk_lt_mk.mpr hjk)

theorem getLast_eq_get_length_sub_one (path : List TripPoint) (hne : path ≠ [])
    (hlen : path.length - 1 < path.length) :
    path.getLast hne = path.get ⟨path.length - 1, hlen⟩ := by
  rw [List.getLast_eq_getElem]
  simp [List.get_eq_getElem]

theorem time_get_le_getLast (path : List TripPoint)
    (hs : List.Pairwise (fun a b => a.time < b.time) path)
    (j : ℕ) (hj : j < path.length) (hne : path ≠ []) :
    (path.get ⟨j, hj⟩).time ≤ (path.getLast hne).time := by
  have hlen : path.length - 1 < path.length :=
    Nat.sub_lt (List.length_pos.mpr hne) Nat.one_pos
  rw [getLast_eq_get_length_sub_one path hne hlen]
  rcases Nat.lt_or_ge j (path.length - 1) with h | h
  · exact le_of_lt (pairwise_time_get_lt path hs j (path.length - 1) hj hlen h)
  · have : j = path.length - 1 := by omega
    subst this
    exact le_refl _

theorem head_lt_getLast_of_tail_ne (p : TripPoint) (ps : List TripPoint)
    (hs : List.Pairwise (fun a b => a.time < b.time) (p :: ps))
    (hps : ps ≠ []) :
    p.time < ((p :: ps).getLast (List.cons_ne_nil p ps)).time := by
  have hmem : (p :: ps).getLast (List.cons_ne_nil p ps) ∈ ps := by
    rw [List.getLast_cons hps]
    exact List.getLast_mem hps
  exact List.rel_of_pairwise_cons hs hmem

/-- C8: for a path with strictly increasing point times,
`interpolatePosition` clamps to the first point's coordinates for `t` at or
before its time, clamps to the last point's coordinates for `t` at or after
its time, returns the linear interpolation (longitude and latitude
independently, at fraction `(t - t0)/(t1 - t0)`) on any consecutive pair of
points whose times bracket `t` (which, times being strictly increasing, is
the first such pair up to coinciding boundary values), and returns the single
point's coordinates for all `t` on a one-point path. -/
theorem C8_interpolate_spec (path : List TripPoint)
    (hs : List.Pairwise (fun a b => a.time < b.time) path) :
    (∀ (t : ℚ) (p0 : TripPoint), path.head? = some p0 → t ≤ p0.time →
      interpolatePosition path t = (p0.lon, p0.lat)) ∧
    (∀ (t : ℚ) (h : path ≠ []), (path.getLast h).time ≤ t →
      interpolatePosition path t =
        ((path.getLast h).lon, (path.getLast h).lat)) ∧
    (∀ (t : ℚ) (i : ℕ) (hi : i + 1 < path.length),
      (path.get ⟨i, Nat.lt_of_succ_lt hi⟩).time ≤ t →
      t ≤ (path.get ⟨i + 1, hi⟩).time →
      interpolatePosition path t =
        lerpAt (path.get ⟨i, Nat.lt_of_succ_lt hi⟩) (path.get ⟨i + 1, hi⟩) t) ∧
    (∀ (t : ℚ) (p : TripPoint), path = [p] →
      interpolatePosition path t = (p.lon, p.lat)) := by
  refine ⟨?_, ?_, ?_, ?_⟩
  · -- clamp to the first point
    intro t p0 hhead ht
    cases path with
    | nil => simp at hhead
    | cons p ps =>
      obtain rfl : p = p0 := by simpa using hhead
      simp [interpolatePosition, ht]
  · -- clamp to the last point
    intro t hne hl
    cases path with
    | nil => exact absurd rfl hne
    | cons p ps =>
      by_cases ht : t ≤ p.time
      · by_cases hps : ps = []
        · subst hps
          simp [interpolatePosition, ht, List.getLast]
        · have hlt : p.time < ((p :: ps).getLast (List.cons_ne_nil p ps)).time :=
            head_lt_getLast_of_tail_ne p ps hs hps
          have : ((p :: ps).getLast (List.cons_ne_nil p ps)).time ≤ p.time :=
            le_trans hl ht
          exact absurd (lt_of_lt_of_le hlt this) (lt_irrefl _)
      · simp [interpolatePosition, ht, hl]
  · -- the bracketing pair
    intro t i hi hl hr
    cases path with
    | nil => simp at hi
    | cons p ps =>
      by_cases ht : t ≤ p.time
      · -- forces i = 0 and t = p.time
        have hp0 : p.time ≤ ((p :: ps).get ⟨i, Nat.lt_of_succ_lt hi⟩).time := by
          cases i with
          | zero => exact le_refl _
          | succ m =>
            exact le_of_lt (pairwise_time_get_lt (p :: ps) hs 0 (m + 1)
              (by simp) (Nat.lt_of_succ_lt hi) (Nat.succ_pos m))
        have hteq : t = p.time := le_antisymm ht (le_trans hp0 hl)
        have hi0 : i = 0 := by
          by_contra hne0
          have hgt : p.time < ((p :: ps).get ⟨i, Nat.lt_of_succ_lt hi⟩).time :=
            pairwise_time_get_lt (p :: ps) hs 0 i (by simp)
              (Nat.lt_of_succ_lt hi) (by omega)
          have : p.time < t := lt_of_lt_of_le hgt hl
          exact absurd (hteq ▸ this) (lt_irrefl _)
        subst hi0
        have hres : interpolatePosition (p :: ps) t = (p.lon, p.lat) := by
          simp [interpolatePosition, ht]
        rw [hres]
        show _ = lerpAt p ((p :: ps).get ⟨1, hi⟩) t
        rw [hteq, lerpAt_left]
      · by_cases hlast : ((p :: ps).getLast (List.cons_ne_nil p ps)).time ≤ t
        · -- forces i + 1 = length - 1 and t = last time
          have hup : ((p :: ps).get ⟨i + 1, hi⟩).time ≤
              ((p :: ps).getLast (List.cons_ne_nil p ps)).time :=
            time_get_le_getLast (p :: ps) hs (i + 1) hi (List.cons_ne_nil p ps)
          have hteq : t = ((p :: ps).get ⟨i + 1, hi⟩).time :=
            le_antisymm hr (le_trans hup hlast)
          have hlen : (p :: ps).length - 1 < (p :: ps).length :=
            Nat.sub_lt (by simp) Nat.one_pos
          have hi1 : i + 1 = (p :: ps).length - 1 := by
            by_contra hne1
            have hstrict : ((p :: ps).get ⟨i + 1, hi⟩).time <
                ((p :: ps).get ⟨(p :: ps).length - 1, hlen⟩).time :=
              pairwise_time_get_lt (p :: ps) hs (i + 1) ((p :: ps).length - 1)
                hi hlen (by omega)
            rw [← getLast_eq_get_length_sub_one (p :: ps) (List.cons_ne_nil p ps) hlen] at hstrict
            have hcon : t < t :=
              lt_of_le_of_lt (le_of_eq hteq) (lt_of_lt_of_le hstrict hlast)
            exact absurd hcon (lt_irrefl t)
          have hres : interpolatePosition (p :: ps) t =
              (((p :: ps).getLast (List.cons_ne_nil p ps)).lon,
                ((p :: ps).getLast (List.cons_ne_nil p ps)).lat) := by
            simp [interpolatePosition, ht, hlast]
          have hgetlast : (p :: ps).getLast (List.cons_ne_nil p ps) =
              (p :: ps).get ⟨i + 1, hi⟩ := by
            rw [getLast_eq_get_length_sub_one (p :: ps) (List.cons_ne_nil p ps) hlen]
            congr 1
            exact Fin.ext hi1.symm
          have hadj : ((p :: ps).get ⟨i, Nat.lt_of_succ_lt hi⟩).time <
              ((p :: ps).get ⟨i + 1, hi⟩).time :=
            pairwise_time_get_lt (p :: ps) hs i (i + 1)
              (Nat.lt_of_succ_lt hi) hi (Nat.lt_succ_self i)
          rw [hres, hgetlast, hteq, lerpAt_right _ _ (ne_of_lt hadj)]
        · -- true interior: the scan loop finds the bracketing pair
          have hscan := interpSegments_bracket (p :: ps) i t hs hi hl hr
          have hres : interpolatePosition (p :: ps) t =
              lerpAt ((p :: ps).get ⟨i, Nat.lt_of_succ_lt hi⟩)
                ((p :: ps).get ⟨i + 1, hi⟩) t := by
            simp [interpolatePosition, ht, hlast, hscan]
          exact hres
  · -- single-point path
    intro t p hp
    subst hp
    by_cases ht : t ≤ p.time
    · simp [interpolatePosition, ht]
    · simp [interpolatePosition, ht, List.getLast, le_of_lt (not_le.mp ht)]

/-- C8 witness: the spec's two-point test path with `t = 5` halfway between —
the hypotheses hold, the theorem gives the bracketing-pair interpolation, and
the value is the hand-computed midpoint `(1, 2)`. -/
theorem C8_interpolate_spec_witness :
    List.Pairwise (fun a b => a.time < b.time) midPath ∧
    (0 : ℚ) ≤ 5 ∧ (5 : ℚ) ≤ 10 ∧
    interpolatePosition midPath 5 = lerpAt ⟨0, 0, 0⟩ ⟨10, 2, 4⟩ 5 ∧
    lerpAt ⟨0, 0, 0⟩ ⟨10, 2, 4⟩ 5 = (1, 2) :=
  ⟨by decide, by decide, by decide,
    (C8_interpolate_spec midPath (by decide)).2.2.1 5 0 (by decide)
      (by decide) (by decide),
    by norm_num [lerpAt]⟩

/-- C9 counterexample: refutes the claim that every out-of-bounds point maps
to `none` (and exhibits the actual column multiplier).  The source's double
arithmetic rounds the cell-count quotients up to `28` and `24`, so the guard
admits a sliver beyond the nominal bounds: the point `(47.7549, -122.3)` has
latitude above `GRID_MAX_LAT = 47.75` yet receives cell id
`27 * 24 + 15 = 663`, and the in-bounds point `(47.6, -122.335)` maps to
`12 * 24 + 11 = 299` (row times 24, not times 23). -/
theorem C9_counterexample :
    GRID_MAX_LAT < (47.7549 : ℚ) ∧
    latLonToCellId 47.7549 (-122.3) = some 663 ∧
    latLonToCellId 47.6 (-122.335) = some 299 := by
  have hi1 : (⌊((47.7549 : ℚ) - GRID_MIN_LAT) / GRID_LAT_STEP⌋ : ℤ) = 27 := by
    norm_num [GRID_MIN_LAT, GRID_LAT_STEP]
  have hj1 : (⌊((-122.3 : ℚ) - GRID_MIN_LON) / GRID_LON_STEP⌋ : ℤ) = 15 := by
    norm_num [GRID_MIN_LON, GRID_LON_STEP]
  have hi2 : (⌊((47.6 : ℚ) - GRID_MIN_LAT) / GRID_LAT_STEP⌋ : ℤ) = 12 := by
    norm_num [GRID_MIN_LAT, GRID_LAT_STEP]
  have hj2 : (⌊((-122.335 : ℚ) - GRID_MIN_LON) / GRID_LON_STEP⌋ : ℤ) = 11 := by
    norm_num [GRID_MIN_LON, GRID_LON_STEP]
  refine ⟨by norm_num [GRID_MAX_LAT], ?_, ?_⟩
  · rw [latLonToCellId]
    simp only [hi1, hj1]
    rw [if_neg]
    · norm_num
    · decide
  · rw [latLonToCellId]
    simp only [hi2, hj2]
    rw [if_neg]
    · norm_num
    · decide

/-- C9 (amended): the spatial grid indexer with the cell counts the program
actually computes (`28` rows, `24` columns, from IEEE-double ceilings of the
range/step quotients).  For a point strictly inside the nominal grid bounds
the result is `some (row * 24 + column)` with
`row = ⌊(lat - minLat)/latStep⌋` and `column = ⌊(lon - minLon)/lonStep⌋`, and
every id so produced lies in `[0, 28 * 24)`.  `none` is returned only beyond
the effective bounds `minLat + 28·latStep` and `minLon + 24·lonStep`; a point
with latitude in the overshoot sliver `[GRID_MAX_LAT, minLat + 28·latStep)`
(and longitude in range) still receives an id rather than `none`. -/
theorem C9_cell_id_ieee :
    (∀ lat lon : ℚ,
      GRID_MIN_LAT < lat → lat < GRID_MAX_LAT →
      GRID_MIN_LON < lon → lon < GRID_MAX_LON →
      latLonToCellId lat lon =
          some (⌊(lat - GRID_MIN_LAT) / GRID_LAT_STEP⌋ * 24 +
            ⌊(lon - GRID_MIN_LON) / GRID_LON_STEP⌋) ∧
        ∀ c : ℤ, latLonToCellId lat lon = some c → 0 ≤ c ∧ c < 28 * 24) ∧
    (∀ lat lon : ℚ,
      lat < GRID_MIN_LAT ∨ GRID_MIN_LAT + 28 * GRID_LAT_STEP ≤ lat ∨
        lon < GRID_MIN_LON ∨ GRID_MIN_LON + 24 * GRID_LON_STEP ≤ lon →
      latLonToCellId lat lon = none) ∧
    (∀ lat lon : ℚ,
      GRID_MAX_LAT ≤ lat → lat < GRID_MIN_LAT + 28 * GRID_LAT_STEP →
      GRID_MIN_LON < lon → lon < GRID_MAX_LON →
      latLonToCellId lat lon =
        some (⌊(lat - GRID_MIN_LAT) / GRID_LAT_STEP⌋ * 24 +
          ⌊(lon - GRID_MIN_LON) / GRID_LON_STEP⌋)) := by
  have hstepLat : (0 : ℚ) < GRID_LAT_STEP := by norm_num [GRID_LAT_STEP]
  have hstepLon : (0 : ℚ) < GRID_LON_STEP := by norm_num [GRID_LON_STEP]
  have hval : ∀ lat lon : ℚ,
      (0 : ℤ) ≤ ⌊(lat - GRID_MIN_LAT) / GRID_LAT_STEP⌋ →
      ⌊(lat - GRID_MIN_LAT) / GRID_LAT_STEP⌋ < 28 →
      (0 : ℤ) ≤ ⌊(lon - GRID_MIN_LON) / GRID_LON_STEP⌋ →
      ⌊(lon - GRID_MIN_LON) / GRID_LON_STEP⌋ < 24 →
      latLonToCellId lat lon =
        some (⌊(lat - GRID_MIN_LAT) / GRID_LAT_STEP⌋ * 24 +
          ⌊(lon - GRID_MIN_LON) / GRID_LON_STEP⌋) := by
    intro lat lon hi0 hi hj0 hj
    rw [latLonToCellId]
    rw [if_neg]
    push_neg
    exact ⟨hi0, hj0, hi, hj⟩
  have hjBounds : ∀ lon : ℚ, GRID_MIN_LON < lon → lon < GRID_MAX_LON →
      (0 : ℤ) ≤ ⌊(lon - GRID_MIN_LON) / GRID_LON_STEP⌋ ∧
        ⌊(lon - GRID_MIN_LON) / GRID_LON_STEP⌋ < 24 := by
    intro lon h3 h4
    constructor
    · exact Int.floor_nonneg.mpr (le_of_lt (div_pos (by linarith) hstepLon))
    · apply Int.floor_lt.mpr
      rw [div_lt_iff₀ hstepLon]
      push_cast
      norm_num [GRID_MAX_LON, GRID_MIN_LON, GRID_LON_STEP] at h4 ⊢
      linarith
  refine ⟨?_, ?_, ?_⟩
  · intro lat lon h1 h2 h3 h4
    have hi0 : (0 : ℤ) ≤ ⌊(lat - GRID_MIN_LAT) / GRID_LAT_STEP⌋ :=
      Int.floor_nonneg.mpr (le_of_lt (div_pos (by linarith) hstepLat))
    have hi28 : ⌊(lat - GRID_MIN_LAT) / GRID_LAT_STEP⌋ < 28 := by
      apply Int.floor_lt.mpr
      rw [div_lt_iff₀ hstepLat]
      push_cast
      norm_num [GRID_MAX_LAT, GRID_MIN_LAT, GRID_LAT_STEP] at h2 ⊢
      linarith
    obtain ⟨hj0, hj24⟩ := hjBounds lon h3 h4
    have h := hval lat lon hi0 hi28 hj0 hj24
    refine ⟨h, ?_⟩
    intro c hc
    rw [h] at hc
    obtain rfl : c = _ := (Option.some.injEq _ _).mp hc.symm
    constructor
    · positivity
    · nlinarith [hi0, hj0, hi28, hj24]
  · intro lat lon h
    rw [latLonToCellId]
    rw [if_pos]
    rcases h with h | h | h | h
    · exact Or.inl (Int.floor_lt.mpr (by
        rw [div_lt_iff₀ hstepLat]; push_cast; linarith))
    · refine Or.inr (Or.inr (Or.inl (Int.le_floor.mpr ?_)))
      rw [le_div_iff₀ hstepLat]
      push_cast
      norm_num [GRID_MIN_LAT, GRID_LAT_STEP] at h ⊢
      linarith
    · exact Or.inr (Or.inl (Int.floor_lt.mpr (by
        rw [div_lt_iff₀ hstepLon]; push_cast; linarith)))
    · refine Or.inr (Or.inr (Or.inr (Int.le_floor.mpr ?_)))
      rw [le_div_iff₀ hstepLon]
      push_cast
      norm_num [GRID_MIN_LON, GRID_LON_STEP] at h ⊢
      linarith
  · intro lat lon h1 h2 h3 h4
    have hi0 : (0 : ℤ) ≤ ⌊(lat - GRID_MIN_LAT) / GRID_LAT_STEP⌋ := by
      apply Int.floor_nonneg.mpr
      apply le_of_lt
      apply div_pos ?_ hstepLat
      norm_num [GRID_MAX_LAT, GRID_MIN_LAT] at h1 ⊢
      linarith
    have hi28 : ⌊(lat - GRID_MIN_LAT) / GRID_LAT_STEP⌋ < 28 := by
      apply Int.floor_lt.mpr
      rw [div_lt_iff₀ hstepLat]
      push_cast
      norm_num [GRID_MIN_LAT, GRID_LAT_STEP] at h2 ⊢
      linarith
    obtain ⟨hj0, hj24⟩ := hjBounds lon h3 h4
    exact hval lat lon hi0 hi28 hj0 hj24

/-- C9 witness: the point `(47.6, -122.335)` lies strictly inside the grid;
the indexer returns the amended formula value, concretely cell id
`12 * 24 + 11 = 299` — the value the program computes. -/
theorem C9_cell_id_ieee_witness :
    GRID_MIN_LAT < (47.6 : ℚ) ∧ (47.6 : ℚ) < GRID_MAX_LAT ∧
    GRID_MIN_LON < (-122.335 : ℚ) ∧ (-122.335 : ℚ) < GRID_MAX_LON ∧
    latLonToCellId 47.6 (-122.335) =
      some (⌊((47.6 : ℚ) - GRID_MIN_LAT) / GRID_LAT_STEP⌋ * 24 +
        ⌊((-122.335 : ℚ) - GRID_MIN_LON) / GRID_LON_STEP⌋) ∧
    latLonToCellId 47.6 (-122.335) = some 299 := by
  have h1 : GRID_MIN_LAT < (47.6 : ℚ) := by norm_num [GRID_MIN_LAT]
  have h2 : (47.6 : ℚ) < GRID_MAX_LAT := by norm_num [GRID_MAX_LAT]
  have h3 : GRID_MIN_LON < (-122.335 : ℚ) := by norm_num [GRID_MIN_LON]
  have h4 : (-122.335 : ℚ) < GRID_MAX_LON := by norm_num [GRID_MAX_LON]
  have hmain := (C9_cell_id_ieee.1 47.6 (-122.335) h1 h2 h3 h4).1
  have hfl1 : (⌊((47.6 : ℚ) - GRID_MIN_LAT) / GRID_LAT_STEP⌋ : ℤ) = 12 := by
    norm_num [GRID_MIN_LAT, GRID_LAT_STEP]
  have hfl2 : (⌊((-122.335 : ℚ) - GRID_MIN_LON) / GRID_LON_STEP⌋ : ℤ) = 11 := by
    norm_num [GRID_MIN_LON, GRID_LON_STEP]
  refine ⟨h1, h2, h3, h4, hmain, ?_⟩
  rw [hmain, hfl1, hfl2]
  norm_num

end SERO
